import Mathlib

/-!
# Verification of the solar-neighborhood visualizer core

Shallow embedding of the core of `src/visualization.py` (class
`PyGameVisualizer`): the world-to-screen projection (`_world_to_screen`),
the distance oracle (`_calculate_distance`), the star-hop route planner
(`_calculate_star_hop_route`), the mouse-click selection handler
(`_handle_mouse_click`), the measurement toggle and add-route branches of
`handle_input`, and the view-snapshot save/load pair
(`_save_view`/`_load_view`).

Modelling conventions:

* Python floats are modelled exactly: quantities combined only by field
  operations and order comparisons live in an arbitrary linear ordered
  field `K` (instantiated at `ℚ` for concrete evaluation and at `ℝ` for
  the Euclidean distance), and the square roots of `_calculate_distance`
  live in `ℝ` via `Real.sqrt`.
* The route planner is parametrised by its distance oracle
  `dist : Star K → Star K → K`; every property proved about it below holds
  for an arbitrary oracle, in particular for the Euclidean one
  (`calculate_distance`, over `K = ℝ`).
* `star_lookup_cache` (a Python dict from star name to star record) is
  modelled as the list of its entries together with lookup by name
  (`lookup`); a failing dict subscript (`KeyError`) is modelled by
  `Except.error`.
* The `route_cache` memoisation (visualization.py lines 1313-1323) is
  value-transparent: every `'distance'` entry ever written (lines 548,
  659, 1323) holds exactly `_calculate_distance` of that pair, and
  route-metric entries (line 742) never carry a `'distance'` key, so the
  memoised reads are omitted from the embedding and the distance is taken
  directly from the oracle.
-/

namespace SolarApp

/-- One catalog record, mirroring the columns of `stars_df` that the
embedded operations read: `name` (the primary key of
`star_lookup_cache`), the world position `x`, `y`, `z`, `distance_ly`
(used by the max-distance filter) and `abs_magnitude` (used by the click
hit radius). -/
structure Star (K : Type) where
  name : String
  x : K
  y : K
  z : K
  distance_ly : K
  abs_magnitude : K
  deriving DecidableEq

/-- Name-indexed lookup into the catalog, modelling
`self.star_lookup_cache[name]` reads (the dict is modelled by its entry
list; a `none` result models a `KeyError`). -/
def lookup {K : Type} (catalog : List (Star K)) (n : String) : Option (Star K) :=
  catalog.find? (fun s => s.name == n)

/-! ## DistanceOracle: `_calculate_distance` (visualization.py lines 489-498)

The Python function takes two star rows, returns `0` when either is
`None`, and otherwise the Euclidean norm of the coordinate difference.
It is a total function of its arguments: no input raises. -/

/-- `_calculate_distance(star1, star2)`: 3D Euclidean distance in light
years, `0` when either argument is absent. -/
noncomputable def calculate_distance (star1 star2 : Option (Star ℝ)) : ℝ :=
  match star1, star2 with
  | none, _ => 0
  | _, none => 0
  | some s1, some s2 =>
      Real.sqrt ((s2.x - s1.x) ^ 2 + (s2.y - s1.y) ^ 2 + (s2.z - s1.z) ^ 2)

/-! ## Projection/Camera: `_world_to_screen` (visualization.py lines 73-106) -/

/-- The camera-relevant instance state of `PyGameVisualizer` read by
`_world_to_screen`: viewport size, pan offset (`camera_pos`), zoom,
the three rotation angles, and the rotation pivot (`rotation_center`). -/
structure CameraState where
  width : ℝ
  height : ℝ
  camera_pos : ℝ × ℝ
  zoom : ℝ
  rotation_x : ℝ
  rotation_y : ℝ
  rotation_z : ℝ
  rotation_center : ℝ × ℝ × ℝ

/-- `_world_to_screen(x, y, z)`: translate by the pivot, rotate about the
X, then Y, then Z axis, then map to screen space (centre of viewport,
scale by zoom, pan offset, inverted Y) and derive the depth size factor
`1 + rel_z * 0.1`. Fractions `1/2` and `1/10` transcribe the literals
`0.5` and `0.1`. -/
noncomputable def world_to_screen (c : CameraState) (x y z : ℝ) : ℝ × ℝ × ℝ :=
  let rel_x := x - c.rotation_center.1
  let rel_y := y - c.rotation_center.2.1
  let rel_z := z - c.rotation_center.2.2
  let cos_x := Real.cos c.rotation_x
  let sin_x := Real.sin c.rotation_x
  let cos_y := Real.cos c.rotation_y
  let sin_y := Real.sin c.rotation_y
  let cos_z := Real.cos c.rotation_z
  let sin_z := Real.sin c.rotation_z
  -- rotation around the X axis
  let y_rot := rel_y * cos_x - rel_z * sin_x
  let z_rot := rel_y * sin_x + rel_z * cos_x
  let rel_y := y_rot
  let rel_z := z_rot
  -- rotation around the Y axis
  let x_rot := rel_x * cos_y + rel_z * sin_y
  let z_rot := -rel_x * sin_y + rel_z * cos_y
  let rel_x := x_rot
  let rel_z := z_rot
  -- rotation around the Z axis
  let x_rot := rel_x * cos_z - rel_y * sin_z
  let y_rot := rel_x * sin_z + rel_y * cos_z
  let rel_x := x_rot
  let rel_y := y_rot
  let screen_x := c.width * (1 / 2) + rel_x * c.zoom + c.camera_pos.1
  let screen_y := c.height * (1 / 2) - rel_y * c.zoom + c.camera_pos.2
  let size_factor := 1 + rel_z * (1 / 10)
  (screen_x, screen_y, size_factor)

/-- The identity camera state of claim C5: all three rotation angles
zero, pivot at the origin, zero pan offset. -/
def identityCamera (width height zoom : ℝ) : CameraState :=
  { width := width, height := height, camera_pos := (0, 0), zoom := zoom
    rotation_x := 0, rotation_y := 0, rotation_z := 0
    rotation_center := (0, 0, 0) }

/-- C5: For every world position P, projecting P under the identity
camera state (all three rotation angles zero, pivot at the origin, zero
pan offset) yields screen coordinates
`(width/2 + P.x*zoom, height/2 - P.y*zoom)` and a size factor equal to
`1 + P.z*0.1`. -/
theorem world_to_screen_identity (width height zoom x y z : ℝ) :
    world_to_screen (identityCamera width height zoom) x y z
      = (width / 2 + x * zoom, height / 2 - y * zoom, 1 + z * (1 / 10)) := by
  simp only [world_to_screen, identityCamera, Real.cos_zero, Real.sin_zero, Prod.mk.injEq]
  refine ⟨by ring, by ring, by ring⟩

/-- C6: the distance operation is symmetric, returns 0 when both
arguments are the same entry, and returns 0 when either argument is
absent (`None`). It is a total Lean function, so it raises no error on
any input. -/
theorem calculate_distance_props :
    (∀ a b : Option (Star ℝ), calculate_distance a b = calculate_distance b a) ∧
    (∀ s : Star ℝ, calculate_distance (some s) (some s) = 0) ∧
    (∀ a : Option (Star ℝ), calculate_distance none a = 0 ∧ calculate_distance a none = 0) := by
  refine ⟨?_, ?_, ?_⟩
  · intro a b
    match a, b with
    | none, none => rfl
    | none, some s => rfl
    | some s, none => rfl
    | some s1, some s2 =>
        simp only [calculate_distance]
        ring_nf
  · intro s
    simp [calculate_distance]
  · intro a
    match a with
    | none => exact ⟨rfl, rfl⟩
    | some s => exact ⟨rfl, rfl⟩

/-! ## RouteEngine: `_calculate_star_hop_route` (visualization.py lines 1286-1462)

The planner is embedded over an arbitrary linear ordered field `K` and an
arbitrary distance oracle `dist`; the source instantiates both with
Python floats and `_calculate_distance`.  Decimal literals of the source
are transcribed as exact fractions: `2.0` as `2`, `0.7` as `7/10`, `0.6`
as `3/5`, `0.5` as `1/2`, `0.05` as `1/20`, `0.0001` as `1/10000`. -/

section RouteEngine

variable {K : Type} [LinearOrderedField K]

/-- One iteration of the candidate scan of the inner `for hop_star in
candidate_stars` loop (visualization.py lines 1387-1433).  The
accumulator is `(best, found_closer_hop)` where `best` carries the
current best hop together with its stored `best_score` (`none` models
the initial `best_hop = None` / `best_score = inf` pair).  The source
stores the best hop's *name* and later re-reads the record from the
name-keyed cache (line 1443); the embedding carries the record itself,
which is the same value.  The unused local `hop_factor` (line 1422) is
omitted. -/
def hop_step (dist : Star K → Star K → K) (current end_star : Star K)
    (dist_to_end max_hop_distance : K) (visited : List String)
    (acc : Option (Star K × K) × Bool) (hop_star : Star K) :
    Option (Star K × K) × Bool :=
  if hop_star.name ∈ visited then acc
  else
    let hop_distance := dist current hop_star
    let to_end_distance := dist hop_star end_star
    if hop_distance < 1 / 2 ∨ hop_distance > max_hop_distance then acc
    else if acc.2 ∧ ¬(to_end_distance < dist_to_end) then acc
    else
      let acc2 := if to_end_distance < dist_to_end ∧ ¬acc.2 then
          ((none : Option (Star K × K)), true)
        else acc
      let score := if to_end_distance < dist_to_end then
          let progress_factor := (dist_to_end - to_end_distance) / dist_to_end
          hop_distance / 2 - progress_factor * dist_to_end / 3
        else
          let penalty := (to_end_distance - dist_to_end) * 2
          hop_distance + penalty
      match acc2.1 with
      | none => (some (hop_star, score), acc2.2)
      | some bs => if score < bs.2 then (some (hop_star, score), acc2.2) else acc2

/-- The whole candidate scan (visualization.py lines 1380-1433): fold
`hop_step` over the candidate list starting from
`best_hop = None, best_score = inf, found_closer_hop = False` and return
the winning hop, if any. -/
def find_best_hop (dist : Star K → Star K → K) (current end_star : Star K)
    (dist_to_end max_hop_distance : K) (visited : List String)
    (candidate_stars : List (Star K)) : Option (Star K) :=
  ((candidate_stars.foldl
      (hop_step dist current end_star dist_to_end max_hop_distance visited)
      (none, false)).1).map Prod.fst

/-- Total distance travelled along `start_star` followed by the listed
hops (visualization.py lines 1366-1372: the running sum over
`route[1:]`, looking each hop up in the cache; the embedding carries the
hop records themselves). -/
def path_distance (dist : Star K → Star K → K) : Star K → List (Star K) → K
  | _, [] => 0
  | prev, s :: rest => dist prev s + path_distance dist s rest

/-- The hop-accumulation loop `for _ in range(max_hops)` (visualization.py
lines 1357-1446), with the iteration count as structural fuel.  The
state is the current star, the list of hop records accumulated so far
(`route[1:]` of the source; the source keeps names and re-reads records
from the name-keyed cache) and the `visited` name set (kept as a list).
The returned flag records whether the destination was appended inside
the loop (the three `route.append(self.selected_star); break` exits at
lines 1363, 1377 and 1437). -/
def route_loop (dist : Star K → Star K → K) (end_star : Star K)
    (candidate_stars : List (Star K)) (max_hop_distance direct_distance : K)
    (start_star : Star K) :
    Nat → Star K → List (Star K) → List String → List (Star K) × Bool
  | 0, _, hops, _ => (hops, false)
  | fuel + 1, current, hops, visited =>
    let dist_to_end := dist current end_star
    -- close enough to the end: go directly there (lines 1361-1364)
    if dist_to_end < max_hop_distance * (3 / 5) then (hops, true)
    else
      let total_distance := path_distance dist start_star hops
      -- detour budget exhausted (lines 1374-1378); max_detour_factor = 2.0
      if total_distance > direct_distance * 2 - dist_to_end then (hops, true)
      else
        match find_best_hop dist current end_star dist_to_end max_hop_distance
            visited candidate_stars with
        | none => (hops, true)
        | some best =>
            route_loop dist end_star candidate_stars max_hop_distance
              direct_distance start_star fuel best (hops ++ [best])
              (visited ++ [best.name])

/-- The planner body once both endpoint records are in hand
(visualization.py lines 1313-1462): direct-hop short circuit, candidate
filtering, the bounded greedy loop (`max_hops = 10`), and the final
destination append guarded by the `0.05` light-year threshold. -/
def plan (dist : Star K → Star K → K) (catalog : List (Star K))
    (rc sel : String) (start_star end_star : Star K) (max_distance : K) :
    List String :=
  let direct_distance := dist start_star end_star
  -- if stars are very close, no need for hopping (lines 1325-1327)
  if direct_distance < 2 then [rc, sel]
  else
    -- candidate list (lines 1333-1339)
    let candidate_stars := catalog.filter (fun s =>
      !(s.name == rc) && !(s.name == sel) && decide (s.distance_ly ≤ max_distance))
    let max_hop_distance := direct_distance * (7 / 10)
    let result := route_loop dist end_star candidate_stars max_hop_distance
      direct_distance start_star 10 start_star [] [rc]
    let route := (rc :: result.1.map (fun s => s.name))
      ++ (if result.2 then [sel] else [])
    -- make sure the end point is in the route (lines 1448-1461); the
    -- route is nonempty, so `getLastD` is the source's `route[-1]`
    if route.getLastD "" = sel then route
    else
      let last_star := result.1.getLastD start_star
      let final_hop_distance := dist last_star end_star
      if final_hop_distance ≥ 1 / 20 then route ++ [sel] else route

/-- `_calculate_star_hop_route` (visualization.py lines 1286-1462).
Inputs mirror the instance state it reads: `selected_star`, the direct
rotation-center reference `rotation_center_star` with its coordinate
fallback over `rotation_center`, `max_distance`, and the catalog.
A failing `star_lookup_cache[...]` subscript (lines 1310-1311) is
`Except.error`.  The function is total: the loop is bounded by
`max_hops = 10` units of fuel, so the planner always terminates. -/
def calculate_star_hop_route (dist : Star K → Star K → K)
    (catalog : List (Star K)) (selected_star : Option String)
    (rotation_center_star : Option (Star K)) (rotation_center : K × K × K)
    (max_distance : K) : Except String (List String) :=
  match selected_star with
  | none => .ok []
  | some sel =>
    -- resolve the rotation-center name (lines 1293-1304)
    let rc_name : Option String :=
      match rotation_center_star with
      | some s => some s.name
      | none => (catalog.find? (fun s =>
          decide (|s.x - rotation_center.1| < 1 / 10000) &&
          decide (|s.y - rotation_center.2.1| < 1 / 10000) &&
          decide (|s.z - rotation_center.2.2| < 1 / 10000))).map (fun s => s.name)
    match rc_name with
    | none => .ok []
    | some rc =>
      if rc = sel then .ok []
      else
        match lookup catalog rc with
        | none => .error "KeyError: rotation center star"
        | some start_star =>
          match lookup catalog sel with
          | none => .error "KeyError: selected star"
          | some end_star =>
              .ok (plan dist catalog rc sel start_star end_star max_distance)

end RouteEngine

/-! ## Specification-side characterisation of the hop selection

The following definitions follow the words of the specification for one
hop-selection round (spec.md section 4.3, steps d-f): candidates
surviving the visited/length filters are partitioned into improving and
non-improving ones, each partition has its own score, the improving
partition is preferred, the lowest score wins, and ties keep the first
candidate in catalog iteration order.  `find_best_hop_matches_spec`
below proves the single-pass scan of the source equal to this
description. -/

section BestHopSpec

variable {K : Type} [LinearOrderedField K] {α : Type}

/-- The element of `l` with the lowest `f`-value, the first-encountered
one in case of ties (`none` on the empty list). -/
def first_min_by (f : α → K) (l : List α) : Option α :=
  l.foldl (fun acc a =>
    match acc with
    | none => some a
    | some b => if f a < f b then some a else some b) none

/-- Running minimiser of `f` started at `b`; ties keep the earlier
element. -/
def min_by (f : α → K) (b : α) (l : List α) : α :=
  l.foldl (fun x a => if f a < f x then a else x) b

theorem min_by_nil (f : α → K) (b : α) : min_by f b [] = b := rfl

theorem min_by_cons (f : α → K) (b a : α) (t : List α) :
    min_by f b (a :: t) = min_by f (if f a < f b then a else b) t := rfl

theorem min_by_mem (f : α → K) (b : α) (l : List α) :
    min_by f b l = b ∨ min_by f b l ∈ l := by
  induction l generalizing b with
  | nil => exact Or.inl rfl
  | cons a t ih =>
      rw [min_by_cons]
      rcases ih (if f a < f b then a else b) with h | h
      · rw [h]
        split
        · exact Or.inr (List.mem_cons_self a t)
        · exact Or.inl rfl
      · exact Or.inr (List.mem_cons_of_mem a h)

theorem first_min_by_cons (f : α → K) (a : α) (t : List α) :
    first_min_by f (a :: t) = some (min_by f a t) := by
  suffices h : ∀ (t : List α) (b : α),
      (t.foldl (fun acc x =>
        match acc with
        | none => some x
        | some c => if f x < f c then some x else some c) (some b))
        = some (min_by f b t) by
    exact h t a
  intro t
  induction t with
  | nil => intro b; rfl
  | cons c t ih =>
      intro b
      rw [min_by_cons]
      by_cases h : f c < f b <;> simp only [List.foldl_cons, h, if_true, if_false, ih]

theorem first_min_by_mem (f : α → K) (l : List α) (b : α)
    (h : first_min_by f l = some b) : b ∈ l := by
  cases l with
  | nil => simp [first_min_by] at h
  | cons a t =>
      rw [first_min_by_cons] at h
      rcases min_by_mem f a t with hm | hm
      · simp only [Option.some.injEq] at h
        rw [← h]
        rw [hm]
        exact List.mem_cons_self a t
      · simp only [Option.some.injEq] at h
        rw [← h]
        exact List.mem_cons_of_mem a hm

end BestHopSpec

section BestHop

variable {K : Type} [LinearOrderedField K]

/-- Candidate filter of one scan round (spec steps c-d): not yet
visited, hop neither shorter than `0.5` ly nor longer than
`maxHopDistance`. -/
def eligibleb (dist : Star K → Star K → K) (current : Star K)
    (max_hop_distance : K) (visited : List String) (s : Star K) : Bool :=
  decide (s.name ∉ visited ∧
    ¬(dist current s < 1 / 2 ∨ dist current s > max_hop_distance))

/-- An improving candidate: `toEndDistance < distToEnd`. -/
def improvingb (dist : Star K → Star K → K) (end_star : Star K)
    (dist_to_end : K) (s : Star K) : Bool :=
  decide (dist s end_star < dist_to_end)

/-- Score of an improving candidate, as the spec words it:
`hopDistance/2 − progressFactor × distToEnd/3` with
`progressFactor = (distToEnd − toEndDistance)/distToEnd`. -/
def closer_score (dist : Star K → Star K → K) (current end_star : Star K)
    (dist_to_end : K) (s : Star K) : K :=
  dist current s / 2 -
    (dist_to_end - dist s end_star) / dist_to_end * dist_to_end / 3

/-- Score of a non-improving candidate:
`hopDistance + 2 × (toEndDistance − distToEnd)`. -/
def farther_score (dist : Star K → Star K → K) (current end_star : Star K)
    (dist_to_end : K) (s : Star K) : K :=
  dist current s + (dist s end_star - dist_to_end) * 2

/-- The hop selection as the specification describes it: improving
candidates, when any exist, are the only eligible pool, scored by
`closer_score`; otherwise the non-improving pool is scored by
`farther_score`; the lowest score wins and ties keep the
first-encountered candidate. -/
def spec_best_hop (dist : Star K → Star K → K) (current end_star : Star K)
    (dist_to_end max_hop_distance : K) (visited : List String)
    (candidate_stars : List (Star K)) : Option (Star K) :=
  let eligible := candidate_stars.filter
    (eligibleb dist current max_hop_distance visited)
  let improving := eligible.filter (improvingb dist end_star dist_to_end)
  if improving.isEmpty then
    first_min_by (farther_score dist current end_star dist_to_end) eligible
  else
    first_min_by (closer_score dist current end_star dist_to_end) improving

end BestHop

section BestHopProof

variable {K : Type} [LinearOrderedField K]
variable (dist : Star K → Star K → K) (current end_star : Star K)
variable (dist_to_end max_hop_distance : K) (visited : List String)

theorem hop_step_not_elig (acc : Option (Star K × K) × Bool) (s : Star K)
    (h : eligibleb dist current max_hop_distance visited s = false) :
    hop_step dist current end_star dist_to_end max_hop_distance visited acc s
      = acc := by
  unfold eligibleb at h
  rw [decide_eq_false_iff_not] at h
  by_cases hv : s.name ∈ visited
  · simp only [hop_step]
    rw [if_pos hv]
  · have hd : dist current s < 1 / 2 ∨ dist current s > max_hop_distance := by
      by_contra hd
      exact h ⟨hv, hd⟩
    simp only [hop_step]
    rw [if_neg hv, if_pos hd]

theorem hop_step_skip_true (b? : Option (Star K × K)) (s : Star K)
    (hE : eligibleb dist current max_hop_distance visited s = true)
    (hI : improvingb dist end_star dist_to_end s = false) :
    hop_step dist current end_star dist_to_end max_hop_distance visited
      (b?, true) s = (b?, true) := by
  unfold eligibleb at hE
  obtain ⟨hv, hd⟩ := of_decide_eq_true hE
  unfold improvingb at hI
  have hni : ¬(dist s end_star < dist_to_end) := of_decide_eq_false hI
  simp only [hop_step]
  rw [if_neg hv, if_neg hd]
  simp [hni]

theorem hop_step_true_imp (b : Star K) (sb : K) (s : Star K)
    (hE : eligibleb dist current max_hop_distance visited s = true)
    (hI : improvingb dist end_star dist_to_end s = true) :
    hop_step dist current end_star dist_to_end max_hop_distance visited
      (some (b, sb), true) s
      = if closer_score dist current end_star dist_to_end s < sb then
          (some (s, closer_score dist current end_star dist_to_end s), true)
        else (some (b, sb), true) := by
  unfold eligibleb at hE
  obtain ⟨hv, hd⟩ := of_decide_eq_true hE
  unfold improvingb at hI
  have hi : dist s end_star < dist_to_end := of_decide_eq_true hI
  simp only [hop_step]
  rw [if_neg hv, if_neg hd]
  simp [hi, closer_score]

theorem hop_step_false_imp (b? : Option (Star K × K)) (s : Star K)
    (hE : eligibleb dist current max_hop_distance visited s = true)
    (hI : improvingb dist end_star dist_to_end s = true) :
    hop_step dist current end_star dist_to_end max_hop_distance visited
      (b?, false) s
      = (some (s, closer_score dist current end_star dist_to_end s), true) := by
  unfold eligibleb at hE
  obtain ⟨hv, hd⟩ := of_decide_eq_true hE
  unfold improvingb at hI
  have hi : dist s end_star < dist_to_end := of_decide_eq_true hI
  simp only [hop_step]
  rw [if_neg hv, if_neg hd]
  simp [hi, closer_score]

theorem hop_step_false_notimp_none (s : Star K)
    (hE : eligibleb dist current max_hop_distance visited s = true)
    (hI : improvingb dist end_star dist_to_end s = false) :
    hop_step dist current end_star dist_to_end max_hop_distance visited
      (none, false) s
      = (some (s, farther_score dist current end_star dist_to_end s), false) := by
  unfold eligibleb at hE
  obtain ⟨hv, hd⟩ := of_decide_eq_true hE
  unfold improvingb at hI
  have hni : ¬(dist s end_star < dist_to_end) := of_decide_eq_false hI
  simp only [hop_step]
  rw [if_neg hv, if_neg hd]
  simp [hni, farther_score]

theorem hop_step_false_notimp_some (b : Star K) (sb : K) (s : Star K)
    (hE : eligibleb dist current max_hop_distance visited s = true)
    (hI : improvingb dist end_star dist_to_end s = false) :
    hop_step dist current end_star dist_to_end max_hop_distance visited
      (some (b, sb), false) s
      = if farther_score dist current end_star dist_to_end s < sb then
          (some (s, farther_score dist current end_star dist_to_end s), false)
        else (some (b, sb), false) := by
  unfold eligibleb at hE
  obtain ⟨hv, hd⟩ := of_decide_eq_true hE
  unfold improvingb at hI
  have hni : ¬(dist s end_star < dist_to_end) := of_decide_eq_false hI
  simp only [hop_step]
  rw [if_neg hv, if_neg hd]
  simp [hni, farther_score]

theorem foldl_hop_step_true (l : List (Star K)) : ∀ b : Star K,
    l.foldl (hop_step dist current end_star dist_to_end max_hop_distance visited)
      (some (b, closer_score dist current end_star dist_to_end b), true)
    = (some (min_by (closer_score dist current end_star dist_to_end) b
          (l.filter (fun s => eligibleb dist current max_hop_distance visited s
            && improvingb dist end_star dist_to_end s)),
        closer_score dist current end_star dist_to_end
          (min_by (closer_score dist current end_star dist_to_end) b
            (l.filter (fun s => eligibleb dist current max_hop_distance visited s
              && improvingb dist end_star dist_to_end s)))), true) := by
  induction l with
  | nil => intro b; simp [min_by]
  | cons a t ih =>
      intro b
      cases hE : eligibleb dist current max_hop_distance visited a with
      | false =>
          rw [List.foldl_cons,
            hop_step_not_elig dist current end_star dist_to_end max_hop_distance visited _ a hE,
            ih b]
          simp [List.filter_cons, hE]
      | true =>
          cases hI : improvingb dist end_star dist_to_end a with
          | false =>
              rw [List.foldl_cons,
                hop_step_skip_true dist current end_star dist_to_end max_hop_distance visited _ a hE hI,
                ih b]
              simp [List.filter_cons, hE, hI]
          | true =>
              rw [List.foldl_cons,
                hop_step_true_imp dist current end_star dist_to_end max_hop_distance visited b _ a hE hI]
              by_cases hc : closer_score dist current end_star dist_to_end a
                  < closer_score dist current end_star dist_to_end b
              · rw [if_pos hc, ih a]
                simp [List.filter_cons, hE, hI, min_by_cons, hc]
              · rw [if_neg hc, ih b]
                simp [List.filter_cons, hE, hI, min_by_cons, hc]

theorem foldl_hop_step_false_some (l : List (Star K)) : ∀ b : Star K,
    l.foldl (hop_step dist current end_star dist_to_end max_hop_distance visited)
      (some (b, farther_score dist current end_star dist_to_end b), false)
    = (match l.filter (fun s => eligibleb dist current max_hop_distance visited s
          && improvingb dist end_star dist_to_end s) with
       | [] =>
          (some (min_by (farther_score dist current end_star dist_to_end) b
              (l.filter (eligibleb dist current max_hop_distance visited)),
            farther_score dist current end_star dist_to_end
              (min_by (farther_score dist current end_star dist_to_end) b
                (l.filter (eligibleb dist current max_hop_distance visited)))), false)
       | a :: t =>
          (some (min_by (closer_score dist current end_star dist_to_end) a t,
            closer_score dist current end_star dist_to_end
              (min_by (closer_score dist current end_star dist_to_end) a t)), true)) := by
  induction l with
  | nil => intro b; simp [min_by]
  | cons a t ih =>
      intro b
      cases hE : eligibleb dist current max_hop_distance visited a with
      | false =>
          rw [List.foldl_cons,
            hop_step_not_elig dist current end_star dist_to_end max_hop_distance visited _ a hE,
            ih b]
          simp [List.filter_cons, hE]
      | true =>
          cases hI : improvingb dist end_star dist_to_end a with
          | true =>
              rw [List.foldl_cons,
                hop_step_false_imp dist current end_star dist_to_end max_hop_distance visited _ a hE hI,
                foldl_hop_step_true dist current end_star dist_to_end max_hop_distance visited t a]
              simp [List.filter_cons, hE, hI]
          | false =>
              rw [List.foldl_cons,
                hop_step_false_notimp_some dist current end_star dist_to_end max_hop_distance visited b _ a hE hI]
              by_cases hc : farther_score dist current end_star dist_to_end a
                  < farther_score dist current end_star dist_to_end b
              · rw [if_pos hc, ih a]
                simp [List.filter_cons, hE, hI, min_by_cons, hc]
              · rw [if_neg hc, ih b]
                simp [List.filter_cons, hE, hI, min_by_cons, hc]

theorem foldl_hop_step_false_none (l : List (Star K)) :
    l.foldl (hop_step dist current end_star dist_to_end max_hop_distance visited)
      (none, false)
    = (match l.filter (fun s => eligibleb dist current max_hop_distance visited s
          && improvingb dist end_star dist_to_end s) with
       | [] =>
          ((first_min_by (farther_score dist current end_star dist_to_end)
              (l.filter (eligibleb dist current max_hop_distance visited))).map
            (fun s => (s, farther_score dist current end_star dist_to_end s)), false)
       | a :: t =>
          (some (min_by (closer_score dist current end_star dist_to_end) a t,
            closer_score dist current end_star dist_to_end
              (min_by (closer_score dist current end_star dist_to_end) a t)), true)) := by
  induction l with
  | nil => simp [first_min_by]
  | cons a t ih =>
      cases hE : eligibleb dist current max_hop_distance visited a with
      | false =>
          rw [List.foldl_cons,
            hop_step_not_elig dist current end_star dist_to_end max_hop_distance visited _ a hE,
            ih]
          simp [List.filter_cons, hE]
      | true =>
          cases hI : improvingb dist end_star dist_to_end a with
          | true =>
              rw [List.foldl_cons,
                hop_step_false_imp dist current end_star dist_to_end max_hop_distance visited _ a hE hI,
                foldl_hop_step_true dist current end_star dist_to_end max_hop_distance visited t a]
              simp [List.filter_cons, hE, hI]
          | false =>
              rw [List.foldl_cons,
                hop_step_false_notimp_none dist current end_star dist_to_end max_hop_distance visited a hE hI,
                foldl_hop_step_false_some dist current end_star dist_to_end max_hop_distance visited t a]
              simp [List.filter_cons, hE, hI, first_min_by_cons]

/-- The single-pass scan of the source equals the specification-side
two-pool description.  Shared helper for the C4 theorem and for the
route-level invariants. -/
theorem find_best_hop_eq (candidate_stars : List (Star K)) :
    find_best_hop dist current end_star dist_to_end max_hop_distance visited
      candidate_stars
    = spec_best_hop dist current end_star dist_to_end max_hop_distance visited
      candidate_stars := by
  unfold find_best_hop spec_best_hop
  rw [foldl_hop_step_false_none]
  have hff : (candidate_stars.filter
        (eligibleb dist current max_hop_distance visited)).filter
        (improvingb dist end_star dist_to_end)
      = candidate_stars.filter
          (fun s => eligibleb dist current max_hop_distance visited s
            && improvingb dist end_star dist_to_end s) := by
    rw [List.filter_filter]
    apply List.filter_congr
    intro s _
    exact Bool.and_comm _ _
  simp only [hff]
  cases h : candidate_stars.filter
      (fun s => eligibleb dist current max_hop_distance visited s
        && improvingb dist end_star dist_to_end s) with
  | nil =>
      simp only [List.isEmpty_nil, if_true, ite_true]
      cases hf : first_min_by (farther_score dist current end_star dist_to_end)
          (candidate_stars.filter (eligibleb dist current max_hop_distance visited)) with
      | none => simp [hf]
      | some b => simp [hf]
  | cons a t =>
      simp [first_min_by_cons]

/-- A selected hop is one of the candidates and is not yet visited. -/
theorem find_best_hop_mem (candidate_stars : List (Star K)) (b : Star K)
    (h : find_best_hop dist current end_star dist_to_end max_hop_distance visited
      candidate_stars = some b) :
    b ∈ candidate_stars ∧ b.name ∉ visited := by
  rw [find_best_hop_eq] at h
  unfold spec_best_hop at h
  have hb : b ∈ candidate_stars.filter
      (eligibleb dist current max_hop_distance visited) := by
    by_cases he : ((candidate_stars.filter
        (eligibleb dist current max_hop_distance visited)).filter
        (improvingb dist end_star dist_to_end)).isEmpty
    · simp only [he, if_true, ite_true] at h
      exact first_min_by_mem _ _ _ h
    · simp only [he, if_false, ite_false] at h
      have := first_min_by_mem _ _ _ h
      exact List.mem_of_mem_filter this
  have hmem := List.mem_of_mem_filter hb
  have helig := List.of_mem_filter hb
  unfold eligibleb at helig
  have := of_decide_eq_true helig
  exact ⟨hmem, this.1⟩

end BestHopProof

/-- C4: in each hop-selection round, every improving candidate
(`toEndDistance < distToEnd`) is scored
`hopDistance/2 - progressFactor * distToEnd/3` with
`progressFactor = (distToEnd - toEndDistance)/distToEnd`, every
non-improving candidate (considered only when no improving candidate
exists) is scored `hopDistance + 2 * (toEndDistance - distToEnd)`, the
candidate with the lowest score is chosen, and ties keep the
first-encountered candidate in catalog iteration order: the single-pass
scan `find_best_hop` of the source equals the two-pool, lowest-first
description `spec_best_hop`. -/
theorem find_best_hop_matches_spec {K : Type} [LinearOrderedField K]
    (dist : Star K → Star K → K) (current end_star : Star K)
    (dist_to_end max_hop_distance : K) (visited : List String)
    (candidate_stars : List (Star K)) :
    find_best_hop dist current end_star dist_to_end max_hop_distance visited
      candidate_stars
    = spec_best_hop dist current end_star dist_to_end max_hop_distance visited
      candidate_stars :=
  find_best_hop_eq dist current end_star dist_to_end max_hop_distance visited
    candidate_stars

section RouteLoopProof

variable {K : Type} [LinearOrderedField K]
variable (dist : Star K → Star K → K) (end_star : Star K)
variable (candidate_stars : List (Star K)) (max_hop_distance direct_distance : K)
variable (start_star : Star K)

/-- Each loop round either stops or adds exactly one hop, so the hop
list grows by at most `fuel`, and by exactly `fuel` when the loop runs
out of fuel without appending the destination. -/
theorem route_loop_length : ∀ (fuel : Nat) (current : Star K)
    (hops : List (Star K)) (visited : List String),
    (route_loop dist end_star candidate_stars max_hop_distance direct_distance
      start_star fuel current hops visited).1.length ≤ hops.length + fuel ∧
    ((route_loop dist end_star candidate_stars max_hop_distance direct_distance
      start_star fuel current hops visited).2 = false →
      (route_loop dist end_star candidate_stars max_hop_distance direct_distance
        start_star fuel current hops visited).1.length = hops.length + fuel) := by
  intro fuel
  induction fuel with
  | zero =>
      intro current hops visited
      simp [route_loop]
  | succ n ih =>
      intro current hops visited
      simp only [route_loop]
      by_cases h1 : dist current end_star < max_hop_distance * (3 / 5)
      · rw [if_pos h1]
        refine ⟨?_, ?_⟩ <;> simp
      · rw [if_neg h1]
        by_cases h2 : path_distance dist start_star hops
            > direct_distance * 2 - dist current end_star
        · rw [if_pos h2]
          refine ⟨?_, ?_⟩ <;> simp
        · rw [if_neg h2]
          split
          · refine ⟨?_, ?_⟩ <;> simp
          · next best hfb =>
              obtain ⟨ha, hb⟩ := ih best (hops ++ [best]) (visited ++ [best.name])
              simp only [List.length_append, List.length_cons, List.length_nil] at ha
              refine ⟨?_, ?_⟩
              · omega
              · intro hfalse
                have := hb hfalse
                simp only [List.length_append, List.length_cons, List.length_nil] at this
                omega

/-- Loop invariant: the hop names stay duplicate-free, and every hop is
either one of the initial hops or a candidate whose name was not in the
initial visited set. -/
theorem route_loop_inv : ∀ (fuel : Nat) (current : Star K)
    (hops : List (Star K)) (visited : List String),
    (∀ s ∈ hops, s.name ∈ visited) →
    (hops.map (fun s => s.name)).Nodup →
    ((route_loop dist end_star candidate_stars max_hop_distance direct_distance
        start_star fuel current hops visited).1.map (fun s => s.name)).Nodup ∧
    (∀ s ∈ (route_loop dist end_star candidate_stars max_hop_distance
        direct_distance start_star fuel current hops visited).1,
      s ∈ hops ∨ (s ∈ candidate_stars ∧ s.name ∉ visited)) := by
  intro fuel
  induction fuel with
  | zero =>
      intro current hops visited hsub hnd
      simp only [route_loop]
      exact ⟨hnd, fun s hs => Or.inl hs⟩
  | succ n ih =>
      intro current hops visited hsub hnd
      simp only [route_loop]
      by_cases h1 : dist current end_star < max_hop_distance * (3 / 5)
      · rw [if_pos h1]
        exact ⟨hnd, fun s hs => Or.inl hs⟩
      · rw [if_neg h1]
        by_cases h2 : path_distance dist start_star hops
            > direct_distance * 2 - dist current end_star
        · rw [if_pos h2]
          exact ⟨hnd, fun s hs => Or.inl hs⟩
        · rw [if_neg h2]
          split
          · exact ⟨hnd, fun s hs => Or.inl hs⟩
          · next best hfb =>
              obtain ⟨hbc, hbv⟩ := find_best_hop_mem dist current end_star
                (dist current end_star) max_hop_distance visited candidate_stars
                best hfb
              have hsub2 : ∀ s ∈ hops ++ [best], s.name ∈ visited ++ [best.name] := by
                intro s hs
                rcases List.mem_append.mp hs with hs | hs
                · exact List.mem_append.mpr (Or.inl (hsub s hs))
                · simp only [List.mem_singleton] at hs
                  subst hs
                  exact List.mem_append.mpr (Or.inr (List.mem_singleton_self _))
              have hnd2 : ((hops ++ [best]).map (fun s => s.name)).Nodup := by
                rw [List.map_append]
                rw [List.nodup_append]
                refine ⟨hnd, List.nodup_singleton _, ?_⟩
                intro a ha
                simp only [List.map_singleton, List.mem_singleton]
                intro heq
                rcases List.mem_map.mp ha with ⟨t, htm, htn⟩
                apply hbv
                rw [← heq, ← htn]
                exact hsub t htm
              obtain ⟨ha, hb⟩ := ih best (hops ++ [best]) (visited ++ [best.name])
                hsub2 hnd2
              refine ⟨ha, ?_⟩
              intro s hs
              rcases hb s hs with hmem | ⟨hc, hv⟩
              · rcases List.mem_append.mp hmem with hmem | hmem
                · exact Or.inl hmem
                · simp only [List.mem_singleton] at hmem
                  subst hmem
                  exact Or.inr ⟨hbc, hbv⟩
              · refine Or.inr ⟨hc, ?_⟩
                intro hin
                exact hv (List.mem_append.mpr (Or.inl hin))

end RouteLoopProof

section PlanProof

variable {K : Type} [LinearOrderedField K]

/-- Unconditional length bounds for the planner body: at least the two
endpoints, at most `maxHops = 10` intermediate hops plus both endpoints. -/
theorem plan_length_bounds (dist : Star K → Star K → K)
    (catalog : List (Star K)) (rc sel : String)
    (start_star end_star : Star K) (max_distance : K) :
    2 ≤ (plan dist catalog rc sel start_star end_star max_distance).length ∧
    (plan dist catalog rc sel start_star end_star max_distance).length ≤ 12 := by
  simp only [plan]
  by_cases hdir : dist start_star end_star < 2
  · rw [if_pos hdir]
    simp
  · rw [if_neg hdir]
    obtain ⟨hlen, hexh⟩ := route_loop_length dist end_star
      (catalog.filter (fun s =>
        !(s.name == rc) && !(s.name == sel) && decide (s.distance_ly ≤ max_distance)))
      (dist start_star end_star * (7 / 10)) (dist start_star end_star) start_star
      10 start_star [] [rc]
    simp only [List.length_nil, Nat.zero_add] at hlen hexh
    cases hr2 : (route_loop dist end_star
        (catalog.filter (fun s =>
          !(s.name == rc) && !(s.name == sel) && decide (s.distance_ly ≤ max_distance)))
        (dist start_star end_star * (7 / 10)) (dist start_star end_star) start_star
        10 start_star [] [rc]).2 with
    | true =>
        have hsel : (if ((true : Bool) = true) then [sel] else ([] : List String))
            = [sel] := rfl
        rw [hsel, List.getLastD_concat, if_pos rfl]
        simp only [List.length_append, List.length_cons, List.length_map,
          List.length_singleton, List.length_nil]
        omega
    | false =>
        have h10 := hexh hr2
        have hsel : (if ((false : Bool) = true) then [sel] else ([] : List String))
            = [] := rfl
        rw [hsel, List.append_nil]
        by_cases hlast : (rc :: (route_loop dist end_star
            (catalog.filter (fun s =>
              !(s.name == rc) && !(s.name == sel) && decide (s.distance_ly ≤ max_distance)))
            (dist start_star end_star * (7 / 10)) (dist start_star end_star) start_star
            10 start_star [] [rc]).1.map (fun s => s.name)).getLastD "" = sel
        · rw [if_pos hlast]
          simp only [List.length_cons, List.length_map, List.length_nil]
          omega
        · rw [if_neg hlast]
          by_cases hfin : dist ((route_loop dist end_star
              (catalog.filter (fun s =>
                !(s.name == rc) && !(s.name == sel) && decide (s.distance_ly ≤ max_distance)))
              (dist start_star end_star * (7 / 10)) (dist start_star end_star) start_star
              10 start_star [] [rc]).1.getLastD start_star) end_star ≥ 1 / 20
          · rw [if_pos hfin]
            simp only [List.length_append, List.length_cons, List.length_map,
              List.length_singleton, List.length_nil]
            omega
          · rw [if_neg hfin]
            simp only [List.length_cons, List.length_map, List.length_nil]
            omega

/-- The planner body never repeats a name when the two endpoint names
differ: the hop names are pairwise distinct, distinct from both
endpoints, and the destination is appended at most once. -/
theorem plan_nodup (dist : Star K → Star K → K) (catalog : List (Star K))
    (rc sel : String) (start_star end_star : Star K) (max_distance : K)
    (hrc : rc ≠ sel) :
    (plan dist catalog rc sel start_star end_star max_distance).Nodup := by
  simp only [plan]
  by_cases hdir : dist start_star end_star < 2
  · rw [if_pos hdir]
    simp [hrc]
  · rw [if_neg hdir]
    obtain ⟨hnd, hmem⟩ := route_loop_inv dist end_star
      (catalog.filter (fun s =>
        !(s.name == rc) && !(s.name == sel) && decide (s.distance_ly ≤ max_distance)))
      (dist start_star end_star * (7 / 10)) (dist start_star end_star) start_star
      10 start_star [] [rc] (by simp) (by simp)
    set R := route_loop dist end_star
      (catalog.filter (fun s =>
        !(s.name == rc) && !(s.name == sel) && decide (s.distance_ly ≤ max_distance)))
      (dist start_star end_star * (7 / 10)) (dist start_star end_star) start_star
      10 start_star [] [rc] with hR
    have hprop : ∀ s ∈ R.1, s.name ≠ rc ∧ s.name ≠ sel := by
      intro s hs
      rcases hmem s hs with h | ⟨hc, _⟩
      · simp at h
      · have hf := List.of_mem_filter hc
        simp only [Bool.and_eq_true, Bool.not_eq_true', beq_eq_false_iff_ne] at hf
        exact ⟨hf.1.1, hf.1.2⟩
    have hrcn : rc ∉ R.1.map (fun s => s.name) := by
      intro h
      rcases List.mem_map.mp h with ⟨s, hs, hn⟩
      exact (hprop s hs).1 hn
    have hseln : sel ∉ R.1.map (fun s => s.name) := by
      intro h
      rcases List.mem_map.mp h with ⟨s, hs, hn⟩
      exact (hprop s hs).2 hn
    have hndcons : (rc :: R.1.map (fun s => s.name)).Nodup := by
      rw [List.nodup_cons]
      exact ⟨hrcn, hnd⟩
    have hndfull : ((rc :: R.1.map (fun s => s.name)) ++ [sel]).Nodup := by
      rw [List.nodup_append]
      refine ⟨hndcons, List.nodup_singleton _, ?_⟩
      intro a ha
      simp only [List.mem_singleton]
      intro he
      subst he
      rcases List.mem_cons.mp ha with h | h
      · exact hrc h.symm
      · exact hseln h
    cases hr2 : R.2 with
    | true =>
        have hsel2 : (if ((true : Bool) = true) then [sel] else ([] : List String))
            = [sel] := rfl
        rw [hsel2, List.getLastD_concat, if_pos rfl]
        exact hndfull
    | false =>
        have hsel2 : (if ((false : Bool) = true) then [sel] else ([] : List String))
            = [] := rfl
        rw [hsel2, List.append_nil]
        by_cases hlast : (rc :: R.1.map (fun s => s.name)).getLastD "" = sel
        · rw [if_pos hlast]
          exact hndcons
        · rw [if_neg hlast]
          by_cases hfin : dist (R.1.getLastD start_star) end_star ≥ 1 / 20
          · rw [if_pos hfin]
            exact hndfull
          · rw [if_neg hfin]
            exact hndcons

end PlanProof

/-- C1: for every catalog and every valid origin/destination pair with
distinct names and direct distance at least `2.0`, the planner returns a
route of length at least 2 and at most 12 (`maxHops = 10` intermediate
hops plus origin plus destination).  The planning loop always
terminates: `route_loop` is structurally recursive on its `maxHops`
fuel, so `calculate_star_hop_route` is a total function. -/
theorem calculate_route_length_bounds {K : Type} [LinearOrderedField K]
    (dist : Star K → Star K → K) (catalog : List (Star K)) (sel : String)
    (origin : Star K) (rotation_center : K × K × K) (max_distance : K)
    (s0 s1 : Star K) (route : List String)
    (hne : origin.name ≠ sel)
    (h0 : lookup catalog origin.name = some s0)
    (h1 : lookup catalog sel = some s1)
    (hge : 2 ≤ dist s0 s1)
    (hroute : calculate_star_hop_route dist catalog (some sel) (some origin)
      rotation_center max_distance = Except.ok route) :
    2 ≤ route.length ∧ route.length ≤ 12 := by
  simp only [calculate_star_hop_route] at hroute
  rw [if_neg hne] at hroute
  rw [h0, h1] at hroute
  simp only [Except.ok.injEq] at hroute
  rw [← hroute]
  exact plan_length_bounds dist catalog origin.name sel s0 s1 max_distance

/-- C2: whenever the direct distance between the resolved origin and
destination records is below `2.0` light-years (and the endpoint names
differ, the planner precondition), the planner returns exactly the
two-element route `[origin.name, destination.name]`. -/
theorem calculate_route_short_circuit {K : Type} [LinearOrderedField K]
    (dist : Star K → Star K → K) (catalog : List (Star K)) (sel : String)
    (origin : Star K) (rotation_center : K × K × K) (max_distance : K)
    (s0 s1 : Star K)
    (hne : origin.name ≠ sel)
    (h0 : lookup catalog origin.name = some s0)
    (h1 : lookup catalog sel = some s1)
    (hlt : dist s0 s1 < 2) :
    calculate_star_hop_route dist catalog (some sel) (some origin)
      rotation_center max_distance = Except.ok [origin.name, sel] := by
  simp only [calculate_star_hop_route]
  rw [if_neg hne, h0, h1]
  simp only [plan, Except.ok.injEq]
  rw [if_pos hlt]

/-- C3: every route the planner returns contains no duplicate names,
for every catalog, every distance oracle and every input state. -/
theorem calculate_route_no_duplicates {K : Type} [LinearOrderedField K]
    (dist : Star K → Star K → K) (catalog : List (Star K))
    (selected_star : Option String) (rotation_center_star : Option (Star K))
    (rotation_center : K × K × K) (max_distance : K) (route : List String)
    (hroute : calculate_star_hop_route dist catalog selected_star
      rotation_center_star rotation_center max_distance = Except.ok route) :
    route.Nodup := by
  cases selected_star with
  | none =>
      simp only [calculate_star_hop_route, Except.ok.injEq] at hroute
      rw [← hroute]
      exact List.nodup_nil
  | some sel =>
      cases rotation_center_star with
      | some origin =>
          simp only [calculate_star_hop_route] at hroute
          by_cases hrs : origin.name = sel
          · rw [if_pos hrs] at hroute
            simp only [Except.ok.injEq] at hroute
            rw [← hroute]
            exact List.nodup_nil
          · rw [if_neg hrs] at hroute
            cases hl0 : lookup catalog origin.name with
            | none =>
                rw [hl0] at hroute
                simp at hroute
            | some s0 =>
                rw [hl0] at hroute
                cases hl1 : lookup catalog sel with
                | none =>
                    rw [hl1] at hroute
                    simp at hroute
                | some s1 =>
                    rw [hl1] at hroute
                    simp only [Except.ok.injEq] at hroute
                    rw [← hroute]
                    exact plan_nodup dist catalog origin.name sel s0 s1
                      max_distance hrs
      | none =>
          simp only [calculate_star_hop_route] at hroute
          cases hf : catalog.find? (fun s =>
              decide (|s.x - rotation_center.1| < 1 / 10000) &&
              decide (|s.y - rotation_center.2.1| < 1 / 10000) &&
              decide (|s.z - rotation_center.2.2| < 1 / 10000)) with
          | none =>
              rw [hf] at hroute
              simp only [Option.map_none', Except.ok.injEq] at hroute
              rw [← hroute]
              exact List.nodup_nil
          | some s =>
              rw [hf] at hroute
              simp only [Option.map_some'] at hroute
              by_cases hrs : s.name = sel
              · rw [if_pos hrs] at hroute
                simp only [Except.ok.injEq] at hroute
                rw [← hroute]
                exact List.nodup_nil
              · rw [if_neg hrs] at hroute
                cases hl0 : lookup catalog s.name with
                | none =>
                    rw [hl0] at hroute
                    simp at hroute
                | some s0 =>
                    rw [hl0] at hroute
                    cases hl1 : lookup catalog sel with
                    | none =>
                        rw [hl1] at hroute
                        simp at hroute
                    | some s1 =>
                        rw [hl1] at hroute
                        simp only [Except.ok.injEq] at hroute
                        rw [← hroute]
                        exact plan_nodup dist catalog s.name sel s0 s1
                          max_distance hrs

/-! ### Concrete witness data: a small rational catalog on the x-axis and
the distance oracle measuring x-offsets. -/

def demo_sun : Star ℚ := ⟨"Sun", 0, 0, 0, 0, 4⟩

def demo_alpha : Star ℚ := ⟨"Alpha", 3, 0, 0, 3, 4⟩

def demo_beta : Star ℚ := ⟨"Beta", 3 / 2, 0, 0, 3 / 2, 4⟩

def demo_dist (a b : Star ℚ) : ℚ := |a.x - b.x|

/-- Witness for C1 at a concrete input: the two-star catalog yields the
route `["Sun", "Alpha"]`, of length within the claimed bounds. -/
theorem calculate_route_length_bounds_witness :
    2 ≤ (["Sun", "Alpha"] : List String).length ∧
      (["Sun", "Alpha"] : List String).length ≤ 12 :=
  calculate_route_length_bounds demo_dist [demo_sun, demo_alpha] "Alpha"
    demo_sun (0, 0, 0) 20 demo_sun demo_alpha ["Sun", "Alpha"]
    (by decide)
    (by with_unfolding_all rfl)
    (by with_unfolding_all rfl)
    (of_decide_eq_true (by with_unfolding_all rfl))
    (by with_unfolding_all rfl)

/-- Witness for C2 at a concrete input: `Beta` sits `1.5 < 2` light
years from `Sun`, so the planner returns the direct two-element route. -/
theorem calculate_route_short_circuit_witness :
    calculate_star_hop_route demo_dist [demo_sun, demo_beta] (some "Beta")
      (some demo_sun) (0, 0, 0) 20 = Except.ok ["Sun", "Beta"] :=
  calculate_route_short_circuit demo_dist [demo_sun, demo_beta] "Beta"
    demo_sun (0, 0, 0) 20 demo_sun demo_beta
    (by decide)
    (by with_unfolding_all rfl)
    (by with_unfolding_all rfl)
    (of_decide_eq_true (by with_unfolding_all rfl))

/-- Witness for C3 at a concrete input: the returned route
`["Sun", "Alpha"]` has no duplicates. -/
theorem calculate_route_no_duplicates_witness :
    (["Sun", "Alpha"] : List String).Nodup :=
  calculate_route_no_duplicates demo_dist [demo_sun, demo_alpha]
    (some "Alpha") (some demo_sun) (0, 0, 0) 20 ["Sun", "Alpha"]
    (by with_unfolding_all rfl)

/-! ## InteractionState: toggle measurement (visualization.py lines 1678-1706)

The `K_m` branch of `handle_input`: resolve the rotation-center name, do
nothing when it equals the selected name, otherwise remove the exact
ordered pair from `distance_lines` if present (Python `list.remove`,
which removes the first occurrence) and append it otherwise. -/

/-- The toggle-measurement state transition on `distance_lines`. -/
def toggle_measurement (rotation_center_name selected_star : String)
    (distance_lines : List (String × String)) : List (String × String) :=
  if selected_star = rotation_center_name then distance_lines
  else
    let measurement := (rotation_center_name, selected_star)
    if measurement ∈ distance_lines then distance_lines.erase measurement
    else distance_lines ++ [measurement]

/-- C7 counterexample: toggling the pair `("A", "B")` twice on the list
`[("A", "B"), ("C", "D")]` does not return the list to its original
state: the removal takes the pair from the front and the re-insertion
appends it at the end, giving `[("C", "D"), ("A", "B")]`. -/
theorem toggle_measurement_double_not_involutive :
    toggle_measurement "A" "B" (toggle_measurement "A" "B"
      [("A", "B"), ("C", "D")]) ≠ [("A", "B"), ("C", "D")] := by
  decide

/-- C7 as amended: a single toggle removes the first occurrence of the
exact ordered pair if present and appends the pair otherwise; the double
toggle returns the list to its original state whenever the pair is
absent, and otherwise (when the pair occurs exactly once) moves its
first occurrence to the end of the list. -/
theorem toggle_measurement_props (rc sel : String)
    (lines : List (String × String)) (hne : sel ≠ rc) :
    ((rc, sel) ∈ lines →
      toggle_measurement rc sel lines = lines.erase (rc, sel)) ∧
    ((rc, sel) ∉ lines →
      toggle_measurement rc sel lines = lines ++ [(rc, sel)]) ∧
    ((rc, sel) ∉ lines →
      toggle_measurement rc sel (toggle_measurement rc sel lines) = lines) ∧
    ((rc, sel) ∈ lines → lines.count (rc, sel) ≤ 1 →
      toggle_measurement rc sel (toggle_measurement rc sel lines)
        = lines.erase (rc, sel) ++ [(rc, sel)]) := by
  refine ⟨?_, ?_, ?_, ?_⟩
  · intro h
    simp only [toggle_measurement]
    rw [if_neg hne, if_pos h]
  · intro h
    simp only [toggle_measurement]
    rw [if_neg hne, if_neg h]
  · intro h
    simp only [toggle_measurement]
    rw [if_neg hne, if_neg h, if_neg hne,
      if_pos (List.mem_append.mpr (Or.inr (List.mem_singleton_self _)))]
    rw [List.erase_append_right _ (by simpa using h)]
    simp
  · intro h hcount
    have hnotin : (rc, sel) ∉ lines.erase (rc, sel) := by
      rw [← List.count_pos_iff, List.count_erase_self]
      omega
    simp only [toggle_measurement]
    rw [if_neg hne, if_pos h, if_neg hne, if_neg hnotin]

/-- Witness for the amended C7 at a concrete input: toggling a present
pair removes its first occurrence. -/
theorem toggle_measurement_props_witness :
    toggle_measurement "A" "B" [("A", "B"), ("C", "D")]
      = ([("A", "B"), ("C", "D")] : List (String × String)).erase ("A", "B") :=
  (toggle_measurement_props "A" "B" [("A", "B"), ("C", "D")]
    (by decide)).1 (by decide)

/-! ## View snapshots: `_save_view` / `_load_view` (visualization.py
lines 1521-1614)

`_save_view` builds a JSON-serialisable dict of the view settings (some
keys only present when their value is truthy) and writes it to a slot
file; `_load_view` reads it back and applies it.  The persistence layer
(json/file I/O) is the out-of-scope collaborator the spec declares
lossless, so the snapshot is modelled as the dict itself (`ViewData`,
with `Option` for the conditional keys) and save-then-load composes the
two dict functions; the `timestamp` entry, never read back, is omitted. -/

/-- The `PyGameVisualizer` instance state touched by save/load. -/
structure ViewState (K : Type) where
  rotation_x : K
  rotation_y : K
  rotation_z : K
  camera_pos : K × K
  zoom : K
  max_distance : K
  show_star_names : Bool
  show_galactic_plane : Bool
  show_coordinate_grid : Bool
  show_galactic_projections : Bool
  show_multiple_star_inset : Bool
  selected_star : Option String
  distance_lines : List (String × String)
  star_hop_routes : List (List String)
  rotation_center : K × K × K
  rotation_center_star : Option (Star K)

/-- The saved view dict.  `Option` fields model keys that `_save_view`
writes only conditionally and `_load_view` reads with
`dict.get`/containment checks. -/
structure ViewData (K : Type) where
  rotation_x : K
  rotation_y : K
  rotation_z : K
  camera_pos : K × K
  zoom : K
  max_distance : K
  show_star_names : Bool
  show_galactic_plane : Bool
  show_coordinate_grid : Bool
  show_galactic_projections : Bool
  show_multiple_star_inset : Bool
  rotation_center_star : Option String
  selected_star : Option String
  distance_lines : Option (List (String × String))
  star_hop_routes : Option (List (List String))

/-- `_center_on_star(star_coords, star_obj)` (visualization.py lines
1262-1284): set the rotation centre, keep a direct reference to the star
record (searching the catalog by coordinates when no record was passed),
and reset the pan offset. -/
def center_on_star {K : Type} [LinearOrderedField K] (catalog : List (Star K))
    (s : ViewState K) (star_coords : K × K × K) (star_obj : Option (Star K)) :
    ViewState K :=
  let rcs := match star_obj with
    | some o => some o
    | none => catalog.find? (fun st =>
        decide (|st.x - star_coords.1| < 1 / 10000) &&
        decide (|st.y - star_coords.2.1| < 1 / 10000) &&
        decide (|st.z - star_coords.2.2| < 1 / 10000))
  { s with
    rotation_center := star_coords
    rotation_center_star := rcs
    camera_pos := (0, 0) }

/-- `_save_view` (lines 1521-1564): the dict it builds.  The
`selected_star`, `distance_lines` and `star_hop_routes` keys are written
only when the Python value is truthy (non-`None`, non-empty string,
non-empty list). -/
def save_view {K : Type} (s : ViewState K) : ViewData K :=
  { rotation_x := s.rotation_x
    rotation_y := s.rotation_y
    rotation_z := s.rotation_z
    camera_pos := s.camera_pos
    zoom := s.zoom
    max_distance := s.max_distance
    show_star_names := s.show_star_names
    show_galactic_plane := s.show_galactic_plane
    show_coordinate_grid := s.show_coordinate_grid
    show_galactic_projections := s.show_galactic_projections
    show_multiple_star_inset := s.show_multiple_star_inset
    rotation_center_star := s.rotation_center_star.map (fun st => st.name)
    selected_star := match s.selected_star with
      | some n => if n == "" then none else some n
      | none => none
    distance_lines := if s.distance_lines.isEmpty then none
      else some s.distance_lines
    star_hop_routes := if s.star_hop_routes.isEmpty then none
      else some s.star_hop_routes }

/-- `_load_view` (lines 1566-1614): apply a saved dict to the state.
The rotation-center name is re-centred only when truthy and present in
the catalog; `selected_star` is set unconditionally from `dict.get`;
`distance_lines` and `star_hop_routes` are set only when their keys are
present. -/
def load_view {K : Type} [LinearOrderedField K] (catalog : List (Star K))
    (v : ViewData K) (s : ViewState K) : ViewState K :=
  let s1 := { s with
    rotation_x := v.rotation_x
    rotation_y := v.rotation_y
    rotation_z := v.rotation_z
    camera_pos := v.camera_pos
    zoom := v.zoom
    max_distance := v.max_distance
    show_star_names := v.show_star_names
    show_galactic_plane := v.show_galactic_plane
    show_coordinate_grid := v.show_coordinate_grid
    show_galactic_projections := v.show_galactic_projections
    show_multiple_star_inset := v.show_multiple_star_inset }
  let s2 := match v.rotation_center_star with
    | some n =>
        if n == "" then s1
        else match lookup catalog n with
          | some star => center_on_star catalog s1 (star.x, star.y, star.z)
              (some star)
          | none => s1
    | none => s1
  let s3 := { s2 with selected_star := v.selected_star }
  let s4 := match v.distance_lines with
    | some dl => { s3 with distance_lines := dl }
    | none => s3
  match v.star_hop_routes with
  | some r => { s4 with star_hop_routes := r }
  | none => s4

/-- A concrete interaction state whose selected entry is the
empty-string name (Python treats it as falsy when saving). -/
def demo_state_empty_name : ViewState ℚ :=
  { rotation_x := 0, rotation_y := 0, rotation_z := 0
    camera_pos := (0, 0), zoom := 40, max_distance := 20
    show_star_names := false, show_galactic_plane := false
    show_coordinate_grid := false, show_galactic_projections := false
    show_multiple_star_inset := true
    selected_star := some ""
    distance_lines := [], star_hop_routes := []
    rotation_center := (0, 0, 0), rotation_center_star := none }

/-- A concrete interaction state with a non-empty selection, one
measurement and one route. -/
def demo_state_full : ViewState ℚ :=
  { rotation_x := 0, rotation_y := 0, rotation_z := 0
    camera_pos := (0, 0), zoom := 40, max_distance := 20
    show_star_names := false, show_galactic_plane := false
    show_coordinate_grid := false, show_galactic_projections := false
    show_multiple_star_inset := true
    selected_star := some "Alpha"
    distance_lines := [("Sun", "Alpha")]
    star_hop_routes := [["Sun", "Alpha"]]
    rotation_center := (0, 0, 0), rotation_center_star := some demo_sun }

/-- C8 counterexample: saving a state whose `selectedEntry` is the
empty-string name and loading the same slot does not reproduce
`selectedEntry`: `_save_view` omits the key for a falsy value, so
`_load_view` restores `None` instead of the empty name. -/
theorem save_load_not_identity :
    (load_view [] (save_view demo_state_empty_name)
        demo_state_empty_name).selected_star
      ≠ demo_state_empty_name.selected_star := by
  decide

/-- The loader sets `selected_star` unconditionally from the dict and
sets the two lists only when their keys are present; the rotation-centre
step never touches these three fields. -/
theorem load_view_fields {K : Type} [LinearOrderedField K]
    (catalog : List (Star K)) (v : ViewData K) (s : ViewState K) :
    (load_view catalog v s).selected_star = v.selected_star ∧
    (load_view catalog v s).distance_lines
      = (match v.distance_lines with
         | some dl => dl
         | none => s.distance_lines) ∧
    (load_view catalog v s).star_hop_routes
      = (match v.star_hop_routes with
         | some r => r
         | none => s.star_hop_routes) := by
  cases hv1 : v.rotation_center_star with
  | none =>
      cases hv2 : v.distance_lines <;> cases hv3 : v.star_hop_routes <;>
        simp [load_view, hv1, hv2, hv3]
  | some n =>
      by_cases hne : (n == "") = true
      · cases hv2 : v.distance_lines <;> cases hv3 : v.star_hop_routes <;>
          simp [load_view, hv1, hv2, hv3, hne]
      · cases hlk : lookup catalog n with
        | none =>
            cases hv2 : v.distance_lines <;> cases hv3 : v.star_hop_routes <;>
              simp [load_view, hv1, hv2, hv3, hne, hlk]
        | some star =>
            cases hv2 : v.distance_lines <;> cases hv3 : v.star_hop_routes <;>
              simp [load_view, center_on_star, hv1, hv2, hv3, hne, hlk]

/-- C8 as amended: for every interaction state whose `selectedEntry` is
not the falsy empty-string name, saving to a slot and loading that same
slot reproduces the identical `selectedEntry`, `measurements`
(`distance_lines`) and `routes` (`star_hop_routes`) lists, in order. -/
theorem save_load_round_trip {K : Type} [LinearOrderedField K]
    (catalog : List (Star K)) (s : ViewState K)
    (hsel : s.selected_star ≠ some "") :
    (load_view catalog (save_view s) s).selected_star = s.selected_star ∧
    (load_view catalog (save_view s) s).distance_lines = s.distance_lines ∧
    (load_view catalog (save_view s) s).star_hop_routes = s.star_hop_routes := by
  obtain ⟨h1, h2, h3⟩ := load_view_fields catalog (save_view s) s
  refine ⟨?_, ?_, ?_⟩
  · rw [h1]
    simp only [save_view]
    cases hn : s.selected_star with
    | none => rfl
    | some n =>
        have hne : ¬(n == "") = true := by
          simp only [beq_iff_eq]
          intro he
          exact hsel (by rw [hn, he])
        simp [hne]
  · rw [h2]
    simp only [save_view]
    by_cases he : s.distance_lines.isEmpty
    · simp [he, List.isEmpty_iff.mp he]
    · simp [he]
  · rw [h3]
    simp only [save_view]
    by_cases he : s.star_hop_routes.isEmpty
    · simp [he, List.isEmpty_iff.mp he]
    · simp [he]

/-- Witness for the amended C8 at a concrete input: a state with a
non-empty selection, one measurement and one route survives the
save/load round trip unchanged. -/
theorem save_load_round_trip_witness :
    (load_view [demo_sun] (save_view demo_state_full) demo_state_full).selected_star
        = demo_state_full.selected_star ∧
    (load_view [demo_sun] (save_view demo_state_full)
        demo_state_full).distance_lines = demo_state_full.distance_lines ∧
    (load_view [demo_sun] (save_view demo_state_full)
        demo_state_full).star_hop_routes = demo_state_full.star_hop_routes :=
  save_load_round_trip [demo_sun] demo_state_full (by decide)

/-! ## Add-route action: the `K_t` branch of `handle_input`
(visualization.py lines 1708-1742)

With a selection present, the handler invokes the route planner, and for
a non-empty route whose last element is not the destination it looks up
`new_route[-1]` and the selected name in `star_lookup_cache` (lines
1725-1726) before deciding whether to append the destination.  Both the
planner (line 1311) and these lookups subscript the cache directly, so a
selected name absent from the catalog raises a `KeyError`
(`Except.error` here). -/

def add_route_action {K : Type} [LinearOrderedField K]
    (dist : Star K → Star K → K) (catalog : List (Star K))
    (selected_star : Option String) (rotation_center_star : Option (Star K))
    (rotation_center : K × K × K) (max_distance : K)
    (star_hop_routes : List (List String)) :
    Except String (List (List String)) :=
  match selected_star with
  | none => .ok star_hop_routes
  | some sel =>
    match calculate_star_hop_route dist catalog (some sel)
        rotation_center_star rotation_center max_distance with
    | .error e => .error e
    | .ok new_route =>
      if new_route.length ≥ 1 then
        if new_route.getLastD "" ≠ sel then
          match lookup catalog (new_route.getLastD ""), lookup catalog sel with
          | some last_star, some dest_star =>
            let final_distance := dist last_star dest_star
            if final_distance < 1 / 20 then .ok (star_hop_routes ++ [new_route])
            else .ok (star_hop_routes ++ [new_route ++ [sel]])
          | _, _ => .error "KeyError: route endpoint star"
        else .ok (star_hop_routes ++ [new_route])
      else .ok star_hop_routes

/-- C9 is a code bug: with a rotation-centre reference in the catalog
but a selected name absent from it (the stale-snapshot state the spec
says is silently ignored), the add-route action propagates the
`KeyError` of `star_lookup_cache[self.selected_star]` (visualization.py
line 1311) instead of resolving to a defined fallback: `_load_view`
validates the rotation-centre name against the catalog but applies
`selected_star` unvalidated (line 1601). -/
theorem add_route_raises_on_stale_selection :
    add_route_action demo_dist [demo_sun] (some "Phantom") (some demo_sun)
      (0, 0, 0) 20 [] = Except.error "KeyError: selected star" := by
  with_unfolding_all rfl

/-! ## SelectionIndex: `_handle_mouse_click` (visualization.py lines
1464-1508)

The handler scans the per-frame `screen_coords_cache` (modelled as the
list of its `(name, screen_x, screen_y)` entries; its keys are catalog
names by construction, so a missing lookup leaves the accumulator
unchanged), skips stars beyond the distance filter, and keeps the
closest star whose click distance is within its hit radius.  Line 1500
then overwrites `self.selected_star` with the result unconditionally,
clearing the previous selection on a miss. -/

/-- Screen-space click distance (line 1484, `** 0.5` as `Real.sqrt`). -/
noncomputable def click_distance (pos : ℝ × ℝ) (coords : ℝ × ℝ) : ℝ :=
  Real.sqrt ((pos.1 - coords.1) ^ 2 + (pos.2 - coords.2) ^ 2)

/-- Hit radius from the absolute magnitude (lines 1488-1490):
`max(5, (15 - (abs_magnitude + 5) * 13/20) * glow_factor)`. -/
noncomputable def click_hit_size (glow_factor : ℝ) (star : Star ℝ) : ℝ :=
  max 5 ((15 - (star.abs_magnitude + 5) * (13 / 20)) * glow_factor)

/-- One iteration of the scan: the accumulator carries
`(closest_star, closest_distance)`, `none` standing for the initial
`closest_star = None, closest_distance = inf` pair. -/
noncomputable def click_step (catalog : List (Star ℝ))
    (max_distance glow_factor : ℝ) (pos : ℝ × ℝ)
    (acc : Option (String × ℝ)) (entry : String × ℝ × ℝ) :
    Option (String × ℝ) :=
  match lookup catalog entry.1 with
  | none => acc
  | some star =>
    if star.distance_ly > max_distance then acc
    else
      let distance := click_distance pos entry.2
      let hit_size := click_hit_size glow_factor star
      match acc with
      | none => if distance < hit_size then some (entry.1, distance) else none
      | some (n, cd) =>
          if distance < hit_size ∧ distance < cd then some (entry.1, distance)
          else some (n, cd)

/-- `_handle_mouse_click` restricted to selection (no
rotation-centre update): returns the new `selected_star`, which
overwrites the previous one unconditionally. -/
noncomputable def handle_mouse_click (catalog : List (Star ℝ))
    (screen_coords_cache : List (String × ℝ × ℝ))
    (max_distance glow_factor : ℝ) (pos : ℝ × ℝ)
    (prev_selected : Option String) : Option String :=
  (screen_coords_cache.foldl (click_step catalog max_distance glow_factor pos)
    none).map Prod.fst

/-- C10: if no in-range star of the per-frame cache has click distance
within its hit radius, the handler sets the selected star to `none`,
clearing any previously selected star rather than retaining it. -/
theorem handle_mouse_click_miss (catalog : List (Star ℝ))
    (screen_coords_cache : List (String × ℝ × ℝ))
    (max_distance glow_factor : ℝ) (pos : ℝ × ℝ)
    (prev_selected : Option String)
    (H : ∀ e ∈ screen_coords_cache, ∀ star : Star ℝ,
      lookup catalog e.1 = some star → ¬(star.distance_ly > max_distance) →
      ¬(click_distance pos e.2 < click_hit_size glow_factor star)) :
    handle_mouse_click catalog screen_coords_cache max_distance glow_factor
      pos prev_selected = none := by
  suffices h : screen_coords_cache.foldl
      (click_step catalog max_distance glow_factor pos) none = none by
    simp [handle_mouse_click, h]
  induction screen_coords_cache with
  | nil => rfl
  | cons e t ih =>
      rw [List.foldl_cons]
      have hstep : click_step catalog max_distance glow_factor pos none e
          = none := by
        cases hlk : lookup catalog e.1 with
        | none => simp [click_step, hlk]
        | some star =>
            by_cases hd : star.distance_ly > max_distance
            · simp [click_step, hlk, hd]
            · simp only [click_step, hlk]
              rw [if_neg hd, if_neg (H e (List.mem_cons_self e t) star hlk hd)]
      rw [hstep]
      exact ih (fun e2 he2 => H e2 (List.mem_cons_of_mem e he2))

/-- Witness for C10 at a concrete input: an empty per-frame cache has no
candidate at all, so a click anywhere clears the previous selection. -/
theorem handle_mouse_click_miss_witness :
    handle_mouse_click [] [] 20 (9 / 5) (0, 0) (some "Sun") = none :=
  handle_mouse_click_miss [] [] 20 (9 / 5) (0, 0) (some "Sun") (by simp)

end SolarApp
